import Mathlib

/-!
Verification development for the dynamic-savings rebalancing bot.

The Python source is shallowly embedded: money amounts are modelled as exact
rationals (ℚ); Python float arithmetic is not modelled bit-for-bit, the
formulas are taken at their exact values.  Stateful methods become pure
functions threading an explicit state record; external API calls are recorded
as events in that record; exceptions are modelled with Option (a propagated
error aborts the surrounding computation, as in the source where the guard
catches it and only notifies).  Python sets are modelled as duplicate-free
lists; iteration order over a set is arbitrary in Python, so nothing proved
below depends on it beyond the list order chosen.
-/

attribute [local semireducible] Rat.mul Rat.add Rat.sub Rat.inv Rat.ofScientific

/-! ## Exact-arithmetic helpers (kernel-computable floor, round, powers of 10) -/

/-- Floor of a rational, computed directly from the normalised fraction. -/
def rfloor (q : ℚ) : ℤ := Int.fdiv q.num q.den

/-- Round-half-up on rationals (the non-tie case of Python round). -/
def rround (q : ℚ) : ℤ := rfloor (q + 1/2)

/-- Round to nearest integer, ties to even: the rounding of Python round. -/
def half_even_round (q : ℚ) : ℤ :=
  if q - rfloor q = 1/2 then (if rfloor q % 2 = 0 then rfloor q else rfloor q + 1)
  else rround q

def pow10 : ℕ → ℚ
  | 0 => 1
  | n + 1 => pow10 n * 10

def qpow10 (p : ℤ) : ℚ := if 0 ≤ p then pow10 p.toNat else (pow10 (-p).toNat)⁻¹

/-- Python round(x, p) on exact rationals: round half to even at p decimal
places.  (Python rounds the binary double; the exact decimal rounding is the
model of that operation.) -/
def py_round (x : ℚ) (p : ℤ) : ℚ := (half_even_round (x * qpow10 p) : ℚ) / qpow10 p

/-! ## String helpers: Python substring and suffix tests, str.split -/

/-- Does the second character list start with the first? -/
def chars_begins : List Char → List Char → Bool
  | [], _ => true
  | _ :: _, [] => false
  | n :: ns, h :: hs => n == h && chars_begins ns hs

/-- Does the first character list occur contiguously inside the second?  This
is Python needle in hay on strings. -/
def chars_within : List Char → List Char → Bool
  | n, [] => n.isEmpty
  | n, h :: t => chars_begins n (h :: t) || chars_within n t

/-- Python needle in hay. -/
def str_contains (hay needle : String) : Bool := chars_within needle.data hay.data

/-- Python s.endswith(suf). -/
def str_endswith (s suf : String) : Bool := chars_begins suf.data.reverse s.data.reverse

/-- Python str.split(sep): splits into all fields, keeping empty fields. -/
def split_chars (sep : Char) : List Char → List (List Char)
  | [] => [[]]
  | c :: rest =>
    match split_chars sep rest with
    | [] => [[]]
    | cur :: parts => if c == sep then [] :: cur :: parts else (c :: cur) :: parts

/-! ## order.py -/

/-- Order dataclass from order.py.  quote_qty is derived (post_init), so it is
a function below rather than a field. -/
structure Order where
  symbol : String
  base_asset : String
  quote_asset : String
  price : ℚ
  quantity : ℚ
  order_id : String
  status : String
  side : String
  timestamp : ℤ
deriving DecidableEq, Repr

/-- Order.__post_init__: quote_qty = price * quantity. -/
def Order.quote_qty (o : Order) : ℚ := o.price * o.quantity

/-- Order.get_deal_id: second-to-last underscore-delimited token of the client
order id (Python order_id.split("_")[-2]).  A Python id with no underscore
would raise IndexError; the model totalises that unused case to the first
token. -/
def Order.get_deal_id (o : Order) : String :=
  let parts := split_chars '_' o.order_id.data
  String.mk (parts.getD (parts.length - 2) [])

def Order.is_new_order (o : Order) : Bool := o.status == "NEW"

def Order.is_filled_order (o : Order) : Bool := o.status == "FILLED"

def Order.is_new_or_filled_order (o : Order) : Bool :=
  o.status == "NEW" || o.status == "FILLED"

def Order.is_buy_order (o : Order) : Bool := o.side == "BUY"

def Order.is_sell_order (o : Order) : Bool := o.side == "SELL"

/-! ## Deal reconstruction (savings_evaluation.py) -/

/-- One step of the stable descending insertion modelling Python
sorted(key=timestamp, reverse=True): insert o before the first element whose
timestamp is strictly smaller, keeping the original order of equal keys. -/
def insert_by_timestamp (o : Order) : List Order → List Order
  | [] => [o]
  | x :: xs => if x.timestamp < o.timestamp then o :: x :: xs else x :: insert_by_timestamp o xs

/-- SavingsEvaluation.__sort_orders_by_timestamp: stable sort, newest first. -/
def sort_orders_by_timestamp (orders : List Order) : List Order :=
  orders.foldl (fun acc o => insert_by_timestamp o acc) []

/-- SavingsEvaluation.__get_current_deal_orders_by_symbol, applied to the
fetched order history.  Filters to BUY orders with status NEW or FILLED, sorts
newest first, takes the deal id of the head order, and keeps the orders whose
client order id CONTAINS that deal id as a substring (Python deal_id in
ord.order_id).  An empty filtered history raises IndexError in Python,
modelled as none. -/
def get_current_deal_orders (orders : List Order) : Option (List Order) :=
  let filtered_orders := orders.filter (fun o => o.is_new_or_filled_order && o.is_buy_order)
  match sort_orders_by_timestamp filtered_orders with
  | [] => none
  | head :: tail =>
      some ((head :: tail).filter (fun o => str_contains o.order_id head.get_deal_id))

/-- Modelled from the spec (4.1): the maximal prefix of the sorted filtered
history all of whose orders share the deal identifier of the head order.  This
is the spec side of claim C2, to be compared with get_current_deal_orders. -/
def spec_head_deal_block (sorted_orders : List Order) : List Order :=
  match sorted_orders with
  | [] => []
  | head :: _ => sorted_orders.takeWhile (fun o => o.get_deal_id == head.get_deal_id)

/-! ## Next-order projection (savings_evaluation.py) -/

/-- SavingsEvaluation.__calculate_next_so_cost:
step_size_buffer = price * step_size; cost = quote_qty * dca_volume_scale
+ step_size_buffer. -/
def calculate_next_so_cost (dca_volume_scale : ℚ) (open_so : Order) (step_size : ℚ) : ℚ :=
  let step_size_buffer := open_so.price * step_size
  open_so.quote_qty * dca_volume_scale + step_size_buffer

/-- SavingsEvaluation.__calculate_next_order_value: pick the first NEW order;
on IndexError fall back to the head of the list, or return the 0.0 sentinel
when the list is empty. -/
def calculate_next_order_value (dca_volume_scale step_size : ℚ)
    (current_deal_orders : List Order) : ℚ :=
  match current_deal_orders.find? (fun o => o.is_new_order) with
  | some open_so => calculate_next_so_cost dca_volume_scale open_so step_size
  | none =>
    match current_deal_orders with
    | open_so :: _ => calculate_next_so_cost dca_volume_scale open_so step_size
    | [] => 0

/-- SavingsEvaluation.__is_safety_order_open: at least one FILLED and at least
one NEW order in the current deal. -/
def is_safety_order_open (current_deal_orders : List Order) : Bool :=
  current_deal_orders.any (fun o => o.status == "FILLED")
    && current_deal_orders.any (fun o => o.status == "NEW")

/-! ## assets_dataframe.py (Asset State Table) -/

/-- One row of the assets dataframe, keyed by symbol. -/
structure AssetRow where
  symbol : String
  next_so : ℚ
  quote_asset : String
deriving DecidableEq, Repr

/-- AssetsDataframe.upsert via df.loc: update the row of the symbol in place,
or append a new row at the end. -/
def upsert (tbl : List AssetRow) (symbol : String) (next_so : ℚ) (quote_asset : String) :
    List AssetRow :=
  if tbl.any (fun r => r.symbol == symbol) then
    tbl.map (fun r =>
      if r.symbol == symbol then { r with next_so := next_so, quote_asset := quote_asset } else r)
  else tbl ++ [⟨symbol, next_so, quote_asset⟩]

/-- AssetsDataframe.drop_by_quote_asset: df = df[df.quote_asset != q]. -/
def drop_by_quote_asset (tbl : List AssetRow) (quote_asset : String) : List AssetRow :=
  tbl.filter (fun r => r.quote_asset != quote_asset)

/-- The next_so column restricted to one quote asset. -/
def projections (tbl : List AssetRow) (quote_asset : String) : List ℚ :=
  (tbl.filter (fun r => r.quote_asset == quote_asset)).map (fun r => r.next_so)

/-- AssetsDataframe.sum_next_orders (pandas sum; empty selection sums to 0). -/
def sum_next_orders (tbl : List AssetRow) (quote_asset : String) : ℚ :=
  (projections tbl quote_asset).sum

/-- AssetsDataframe.max_next_orders (pandas max; empty selection gives NaN,
modelled as none). -/
def max_next_orders (tbl : List AssetRow) (quote_asset : String) : Option ℚ :=
  (projections tbl quote_asset).max?

/-- SavingsEvaluation.__is_rebalance_required:
min_balance_required = max(sum * quote_coverage, max); balance strictly below
means rebalance.  With no rows, pandas max is NaN and Python
max(0 * coverage, NaN) keeps the first argument 0.0, so the comparison is
balance < 0. -/
def is_rebalance_required (quote_coverage current_spot_balance : ℚ)
    (tbl : List AssetRow) (quote_asset : String) : Bool :=
  let orders_sum := sum_next_orders tbl quote_asset
  match max_next_orders tbl quote_asset with
  | none => decide (current_spot_balance < orders_sum * quote_coverage)
  | some orders_max =>
      decide (current_spot_balance < max (orders_sum * quote_coverage) orders_max)

/-! ## Rebalance executor (savings_evaluation.py) -/

/-- Telegram notifications emitted by the executor, by kind. -/
inductive Msg where
  | notEnoughSavings (asset : String)
  | unavailableRedeem (asset : String)
  | unavailablePurchase (asset : String)
  | belowMinPurchase (asset : String)
  | dryRunNotice
  | movedToSpot (asset : String)
  | movedToSavings (asset : String)
  | noRebalanceRequired
  | rebalanceError (asset : String)
deriving DecidableEq, Repr

/-- The external-world inputs of the executor: the binance client queries it
makes, the dry_run flag, and whether the external transfer calls raise. -/
structure Env where
  savings : String → ℚ
  can_redeem : String → Bool
  can_purchase : String → Bool
  min_purchase : String → ℚ
  dry_run : Bool
  redeem_raises : String → Bool
  subscribe_raises : String → Bool

/-- Mutable observables of a run: the rebalance_failures set (as a
duplicate-free list), the external transfer calls actually issued (most
recent first), the notifications (most recent first), and the quote assets
the executor was invoked for (in order). -/
structure EState where
  failures : List String
  redeem_calls : List (String × ℚ)
  subscribe_calls : List (String × ℚ)
  msgs : List Msg
  invocations : List String
deriving DecidableEq, Repr

/-- Python set.add on the failures list. -/
def add_failure (failures : List String) (asset : String) : List String :=
  if asset ∈ failures then failures else asset :: failures

/-- SavingsEvaluation.__redeem_asset_from_savings.  The quantity is first
capped to the available savings (with a notification), then the redeemable
flag is checked (failure set on refusal), then the external redeem call is
made unless dry_run or the capped quantity is not positive; an exception from
the call adds the asset to the failure set. -/
def redeem_asset_from_savings (env : Env) (st : EState) (asset : String) (quantity : ℚ) :
    EState :=
  let savings_amount := env.savings asset
  let st :=
    if savings_amount < quantity then
      { st with msgs := Msg.notEnoughSavings asset :: st.msgs }
    else st
  let quantity := if savings_amount < quantity then savings_amount else quantity
  if env.can_redeem asset = false then
    { st with msgs := Msg.unavailableRedeem asset :: st.msgs,
              failures := add_failure st.failures asset }
  else if env.dry_run = false ∧ quantity > 0 then
    let st := { st with redeem_calls := (asset, quantity) :: st.redeem_calls }
    if env.redeem_raises asset then
      { st with msgs := Msg.rebalanceError asset :: st.msgs,
                failures := add_failure st.failures asset }
    else { st with msgs := Msg.movedToSpot asset :: st.msgs }
  else
    { st with msgs := Msg.movedToSpot asset :: Msg.dryRunNotice :: st.msgs }

/-- SavingsEvaluation.__subscribe_asset_to_savings.  Minimum purchase check
(silent skip, no failure), then the purchasable flag (failure set on refusal),
then the external subscribe call unless dry_run; an exception from the call
adds the asset to the failure set. -/
def subscribe_asset_to_savings (env : Env) (st : EState) (asset : String) (quantity : ℚ) :
    EState :=
  if quantity < env.min_purchase asset then
    { st with msgs := Msg.belowMinPurchase asset :: st.msgs }
  else if env.can_purchase asset = false then
    { st with msgs := Msg.unavailablePurchase asset :: st.msgs,
              failures := add_failure st.failures asset }
  else if env.dry_run = false then
    let st := { st with subscribe_calls := (asset, quantity) :: st.subscribe_calls }
    if env.subscribe_raises asset then
      { st with msgs := Msg.rebalanceError asset :: st.msgs,
                failures := add_failure st.failures asset }
    else { st with msgs := Msg.movedToSavings asset :: st.msgs }
  else
    { st with msgs := Msg.movedToSavings asset :: Msg.dryRunNotice :: st.msgs }

/-- SavingsEvaluation.__rebalance_savings (the Executor): delta rounded to the
quote precision decides redeem (shortfall), subscribe (surplus), or no-op.
The invocations field records each entry into the Executor. -/
def rebalance_savings (env : Env) (st : EState) (quote_asset : String)
    (quote_precision : ℤ) (current_quote_balance required_quote_balance : ℚ) : EState :=
  let st := { st with invocations := st.invocations ++ [quote_asset] }
  let rebalance_amount := py_round (current_quote_balance - required_quote_balance) quote_precision
  if rebalance_amount < 0 then
    redeem_asset_from_savings env st quote_asset (-rebalance_amount)
  else if rebalance_amount > 0 then
    subscribe_asset_to_savings env st quote_asset rebalance_amount
  else
    { st with msgs := Msg.noRebalanceRequired :: st.msgs }

/-! ## Full-universe rebalance (SavingsEvaluation.__rebalance_quote_assets) -/

/-- External inputs of a full-universe run. -/
structure UniEnv where
  active_symbols : List String
  excluded_symbols : List String
  quote_asset_of : String → String
  orders_of : String → List Order
  step_size_of : String → ℚ
  quote_precision_of : String → ℤ
  balance_of : String → ℚ
  dca_volume_scale : ℚ
  ex : Env

/-- The active symbols with the configured exclusions removed (Python:
all(y not in x for y in excluded_symbols), a substring test). -/
def filtered_active_symbols (env : UniEnv) : List String :=
  env.active_symbols.filter (fun x => env.excluded_symbols.all (fun y => !(str_contains x y)))

/-- The set of quote assets of the filtered symbols (a Python set; modelled as
the duplicate-free list in first-occurrence order). -/
def quote_assets_of (env : UniEnv) : List String :=
  ((filtered_active_symbols env).map env.quote_asset_of).eraseDups

/-- The body of the per-quote-asset loop of __rebalance_quote_assets: drop the
rows of the quote asset, recompute every member symbol's projection and upsert
it, then invoke the Executor with the summed requirement.  none models a
propagated exception (empty symbol list for the quote asset, or an order
history with nothing to reconstruct), which aborts the whole pass. -/
def process_quote_asset (env : UniEnv) (acc : List AssetRow × EState) (quote_asset : String) :
    Option (List AssetRow × EState) :=
  let tbl := drop_by_quote_asset acc.1 quote_asset
  let quote_symbols := (filtered_active_symbols env).filter (fun s => str_endswith s quote_asset)
  match quote_symbols with
  | [] => none
  | s0 :: _ =>
    let quote_precision := env.quote_precision_of s0
    match quote_symbols.foldlM (fun t sym => do
        let deal_orders ← get_current_deal_orders (env.orders_of sym)
        pure (upsert t sym
          (calculate_next_order_value env.dca_volume_scale (env.step_size_of sym) deal_orders)
          quote_asset)) tbl with
    | none => none
    | some tbl =>
      let current_quote_balance := env.balance_of quote_asset
      let required_quote_balance := sum_next_orders tbl quote_asset
      some (tbl, rebalance_savings env.ex acc.2 quote_asset quote_precision
                   current_quote_balance required_quote_balance)

/-- SavingsEvaluation.__rebalance_quote_assets in full-universe mode
(quote_asset=None): loop over every quote asset group. -/
def rebalance_quote_assets (env : UniEnv) (tbl : List AssetRow) (st : EState) :
    Option (List AssetRow × EState) :=
  (quote_assets_of env).foldlM (fun acc q => process_quote_asset env acc q) (tbl, st)

/-! ## failure_handler.py -/

/-- The for-loop of FailureHandler.monitor_failures: can_rebalance starts
False; each passing asset sets it True, the first failing asset sets it False
and breaks. -/
def can_rebalance_loop (can_purchase can_redeem : String → Bool) :
    Bool → List String → Bool
  | flag, [] => flag
  | _, a :: rest =>
    if can_purchase a && can_redeem a then can_rebalance_loop can_purchase can_redeem true rest
    else false

/-- One tick of FailureHandler.monitor_failures: if the loop ends with
can_rebalance, the failure set is cleared and rebalance_all_symbols runs once
(the returned count); otherwise nothing happens. -/
def monitor_failures_tick (can_purchase can_redeem : String → Bool)
    (failures : List String) : List String × ℕ :=
  if can_rebalance_loop can_purchase can_redeem false failures then ([], 1) else (failures, 0)

/-! ## asset_precision_calculator.py -/

/-- AssetPrecisionCalculator.get_asset_precision without the cache.  price_of
returns none when the price fetch raises; USDT is priced at 1; a price of 0
makes np.log10 return -inf and the int() conversion raise, caught to the
default 2; otherwise precision = max(2 + floor(log10 |price|), 0), with
Int.log the floor of the base-10 logarithm. -/
def get_asset_precision (price_of : String → Option ℚ) (asset : String) : ℤ :=
  match (if asset == "USDT" then some 1 else price_of asset) with
  | none => 2
  | some price => if price = 0 then 2 else max (2 + Int.log 10 |price|) 0

/-- The lru_cache wrapper on get_asset_precision, with the cache explicit. -/
def get_asset_precision_cached (price_of : String → Option ℚ)
    (cache : List (String × ℤ)) (asset : String) : ℤ × List (String × ℤ) :=
  match cache.lookup asset with
  | some v => (v, cache)
  | none =>
    let v := get_asset_precision price_of asset
    (v, (asset, v) :: cache)

/-! ## Concrete inputs used by witnesses and counterexamples -/

/-- A NEW safety order with quote notional 100 at price 50 (quantity 2). -/
def so_example : Order := ⟨"BTCUSDT", "BTC", "USDT", 50, 2, "x_9_1", "NEW", "BUY", 5⟩

/-- Projection table with projections 10, 10, 30 for USDT. -/
def tbl_example : List AssetRow :=
  [⟨"AUSDT", 10, "USDT"⟩, ⟨"BUSDT", 10, "USDT"⟩, ⟨"CUSDT", 30, "USDT"⟩]

/-- Mixed-quote table for the frame property of drop_by_quote_asset. -/
def tbl_mixed : List AssetRow :=
  [⟨"AUSDT", 10, "USDT"⟩, ⟨"BBTC", 3, "BTC"⟩, ⟨"CUSDT", 7, "USDT"⟩]

/-- The empty executor state. -/
def st0 : EState := ⟨[], [], [], [], []⟩

/-! ## Shared helper lemmas -/

/-- The monitor loop ends true exactly when the (non-empty) list passes both
checks throughout, whatever the incoming flag. -/
theorem can_rebalance_loop_true_iff (can_purchase can_redeem : String → Bool)
    (l : List String) (hl : l ≠ []) (flag : Bool) :
    can_rebalance_loop can_purchase can_redeem flag l = true
      ↔ ∀ a ∈ l, can_purchase a = true ∧ can_redeem a = true := by
  induction l generalizing flag with
  | nil => exact absurd rfl hl
  | cons a rest ih =>
    by_cases h : can_purchase a && can_redeem a
    · rcases Bool.and_eq_true_iff.mp h with ⟨h1, h2⟩
      cases rest with
      | nil => simp [can_rebalance_loop, h, h1, h2]
      | cons b t =>
        rw [show can_rebalance_loop can_purchase can_redeem flag (a :: b :: t)
              = can_rebalance_loop can_purchase can_redeem true (b :: t) by
            simp [can_rebalance_loop, h]]
        rw [ih (by simp) true]
        simp [h1, h2]
    · have h' : (can_purchase a && can_redeem a) = false := by
        exact Bool.not_eq_true _ ▸ (by simpa using h)
      simp only [can_rebalance_loop, h', Bool.false_eq_true, if_false]
      constructor
      · intro hfalse; exact absurd hfalse (by simp)
      · intro hall
        rcases hall a (by simp) with ⟨h1, h2⟩
        rw [h1, h2] at h'; simp at h'

/-! ## Claim C3: recovery-loop tick all-or-nothing -/

/-- C3: for a non-empty Failure Set, one recovery tick clears the set and
triggers exactly one full-universe rebalance if and only if every member
passes both the purchasable and the redeemable check; if any member fails
either check the tick leaves the set unchanged and triggers no rebalance. -/
theorem C3_recovery_tick :
    ∀ (can_purchase can_redeem : String → Bool) (failures : List String),
      failures ≠ [] →
      ((∀ a ∈ failures, can_purchase a = true ∧ can_redeem a = true) →
          monitor_failures_tick can_purchase can_redeem failures = ([], 1))
      ∧ ((¬ ∀ a ∈ failures, can_purchase a = true ∧ can_redeem a = true) →
          monitor_failures_tick can_purchase can_redeem failures = (failures, 0))
      ∧ (monitor_failures_tick can_purchase can_redeem failures = ([], 1)
          ↔ ∀ a ∈ failures, can_purchase a = true ∧ can_redeem a = true) := by
  intro cp cr failures hne
  have hiff := can_rebalance_loop_true_iff cp cr failures hne false
  refine ⟨?_, ?_, ?_⟩
  · intro hall
    rw [monitor_failures_tick, if_pos (hiff.mpr hall)]
  · intro hnot
    rw [monitor_failures_tick, if_neg (fun h => hnot (hiff.mp h))]
  · constructor
    · intro htick
      by_cases hloop : can_rebalance_loop cp cr false failures = true
      · exact hiff.mp hloop
      · rw [monitor_failures_tick, if_neg hloop] at htick
        cases htick
    · intro hall
      rw [monitor_failures_tick, if_pos (hiff.mpr hall)]

/-- Witness for C3 at the Failure Set from the spec's example: with both
members eligible the tick clears the set and fires one rebalance; with member
B ineligible nothing happens. -/
theorem C3_recovery_tick_witness :
    monitor_failures_tick (fun _ => true) (fun _ => true) ["A", "B"] = ([], 1)
    ∧ monitor_failures_tick (fun a => a == "A") (fun _ => true) ["A", "B"]
        = (["A", "B"], 0) :=
  ⟨(C3_recovery_tick (fun _ => true) (fun _ => true) ["A", "B"] (by decide)).1 (by decide),
   (C3_recovery_tick (fun a => a == "A") (fun _ => true) ["A", "B"] (by decide)).2.1
     (by decide)⟩

/-! ## Claim C9: empty Failure Set means an idle tick -/

/-- C9: a recovery tick with an empty Failure Set does nothing: the set stays
empty and no full-universe rebalance is triggered (the vacuous all-pass case
does not fire). -/
theorem C9_empty_tick :
    ∀ (can_purchase can_redeem : String → Bool),
      monitor_failures_tick can_purchase can_redeem [] = ([], 0) :=
  fun _ _ => rfl

/-! ## Claim C6: projected next-order cost formula -/

/-- C6: for every deal whose first NEW order is the open order, the projected
next-order cost is quote notional x volume scale + price x step size; at
notional 100 (price 50, quantity 2), scale 1.05 and step size 0.01 the cost
is 105.5. -/
theorem C6_next_order_cost :
    (∀ (dca_volume_scale step_size : ℚ) (orders : List Order) (open_so : Order),
        orders.find? (fun o => o.is_new_order) = some open_so →
        calculate_next_order_value dca_volume_scale step_size orders
          = open_so.quote_qty * dca_volume_scale + open_so.price * step_size)
    ∧ calculate_next_so_cost 1.05 so_example 0.01 = 105.5 := by
  constructor
  · intro s t orders o h
    simp [calculate_next_order_value, h, calculate_next_so_cost]
  · decide

/-- Witness for C6: the literal example evaluated through the projector. -/
theorem C6_next_order_cost_witness :
    calculate_next_order_value 1.05 0.01 [so_example] = 105.5 := by
  have h := C6_next_order_cost.1 1.05 0.01 [so_example] so_example (by decide)
  rw [h]; decide

/-! ## Claim C4: single-symbol rebalance requirement rule -/

/-- C4: with at least one table row for the quote asset, a rebalance is
required iff the balance is strictly below max(sum x coverage, max of the
projections); with projections 10, 10, 30 and coverage 0.5 the requirement is
30, so balance 20 requires a rebalance and balance 35 does not. -/
theorem C4_rebalance_requirement :
    (∀ (quote_coverage balance : ℚ) (tbl : List AssetRow) (q : String) (m : ℚ),
        max_next_orders tbl q = some m →
        (is_rebalance_required quote_coverage balance tbl q = true ↔
          balance < max (sum_next_orders tbl q * quote_coverage) m))
    ∧ projections tbl_example "USDT" = [10, 10, 30]
    ∧ is_rebalance_required 0.5 20 tbl_example "USDT" = true
    ∧ is_rebalance_required 0.5 35 tbl_example "USDT" = false := by
  refine ⟨?_, by decide, by decide, by decide⟩
  intro c b tbl q m h
  simp [is_rebalance_required, h]

/-- Witness for C4: the rule applied at the spec's literal example. -/
theorem C4_rebalance_requirement_witness :
    is_rebalance_required 0.5 20 tbl_example "USDT" = true ↔ (20:ℚ) < max (50 * 0.5) 30 := by
  have h1 : max_next_orders tbl_example "USDT" = some 30 := by decide
  have h2 : sum_next_orders tbl_example "USDT" = 50 := by decide
  have h := C4_rebalance_requirement.1 0.5 20 tbl_example "USDT" 30 h1
  rw [h2] at h
  exact h

/-! ## Claim C10: drop_by_quote_asset frame property -/

/-- The selection of one quote asset is untouched by dropping another. -/
theorem projections_drop_ne (tbl : List AssetRow) (q q' : String) (hne : q' ≠ q) :
    projections (drop_by_quote_asset tbl q) q' = projections tbl q' := by
  unfold projections drop_by_quote_asset
  rw [List.filter_filter]
  congr 1
  apply List.filter_congr
  intro r _
  by_cases h : r.quote_asset = q'
  · have : r.quote_asset ≠ q := fun hq => hne (h ▸ hq ▸ rfl)
    simp [h, this, hne]
  · simp [h]

/-- C10: drop_by_quote_asset removes exactly the rows of the given quote
asset, keeps every other row (in order), and leaves sum_next_orders and
max_next_orders unchanged for every other quote asset. -/
theorem C10_drop_frame :
    ∀ (tbl : List AssetRow) (q q' : String) (r : AssetRow),
      (r ∈ drop_by_quote_asset tbl q ↔ (r ∈ tbl ∧ r.quote_asset ≠ q))
      ∧ (drop_by_quote_asset tbl q).Sublist tbl
      ∧ (q' ≠ q →
          sum_next_orders (drop_by_quote_asset tbl q) q' = sum_next_orders tbl q'
          ∧ max_next_orders (drop_by_quote_asset tbl q) q' = max_next_orders tbl q') := by
  intro tbl q q' r
  refine ⟨?_, List.filter_sublist tbl, ?_⟩
  · simp [drop_by_quote_asset, List.mem_filter]
  · intro hne
    constructor
    · unfold sum_next_orders
      rw [projections_drop_ne tbl q q' hne]
    · unfold max_next_orders
      rw [projections_drop_ne tbl q q' hne]

/-- Witness for C10 on a mixed-quote table: dropping USDT leaves the BTC
aggregates untouched. -/
theorem C10_drop_frame_witness :
    sum_next_orders (drop_by_quote_asset tbl_mixed "USDT") "BTC" = sum_next_orders tbl_mixed "BTC"
    ∧ max_next_orders (drop_by_quote_asset tbl_mixed "USDT") "BTC"
        = max_next_orders tbl_mixed "BTC" :=
  (C10_drop_frame tbl_mixed "USDT" "BTC" ⟨"X", 0, "X"⟩).2.2 (by decide)

/-! ## Claim C2: deal reconstruction -/

/-- Head of a deal: NEW BUY order of deal 7, newest. -/
def order_a : Order := ⟨"BTCUSDT", "BTC", "USDT", 10, 1, "x_7_1", "NEW", "BUY", 3⟩

/-- A FILLED BUY order of a different deal (8), in the middle by time. -/
def order_b : Order := ⟨"BTCUSDT", "BTC", "USDT", 11, 1, "x_8_2", "FILLED", "BUY", 2⟩

/-- An older FILLED BUY order of deal 7 again. -/
def order_c : Order := ⟨"BTCUSDT", "BTC", "USDT", 12, 1, "x_7_3", "FILLED", "BUY", 1⟩

/-- A FILLED BUY order of deal 7, directly below the head by time. -/
def order_e : Order := ⟨"BTCUSDT", "BTC", "USDT", 11, 1, "x_7_2", "FILLED", "BUY", 2⟩

/-- An old FILLED BUY order of deal 8 whose id does not contain 7. -/
def order_f : Order := ⟨"BTCUSDT", "BTC", "USDT", 12, 1, "y_8_1", "FILLED", "BUY", 1⟩

/-- C2 counterexample: on the history a (deal 7, newest), b (deal 8), c
(deal 7, oldest), the code returns the non-contiguous selection [a, c]
(substring filter over the whole sorted list), not the maximal
shared-deal-identifier prefix [a] demanded by the claim. -/
theorem C2_counterexample :
    get_current_deal_orders [order_a, order_b, order_c] = some [order_a, order_c]
    ∧ spec_head_deal_block
        (sort_orders_by_timestamp
          ([order_a, order_b, order_c].filter
            (fun o => o.is_new_or_filled_order && o.is_buy_order))) = [order_a]
    ∧ get_current_deal_orders [order_a, order_b, order_c]
        ≠ some (spec_head_deal_block
            (sort_orders_by_timestamp
              ([order_a, order_b, order_c].filter
                (fun o => o.is_new_or_filled_order && o.is_buy_order)))) := by
  refine ⟨by decide, by decide, by decide⟩

/-- A filter equals the takeWhile prefix when nothing after the initial run of
matches still matches. -/
theorem filter_eq_takeWhile_of_no_late_match {α : Type} (p : α → Bool) (l : List α)
    (h : ∀ a ∈ l.dropWhile p, p a = false) : l.filter p = l.takeWhile p := by
  induction l with
  | nil => rfl
  | cons a t ih =>
    cases hpa : p a with
    | true =>
      have hdrop : (a :: t).dropWhile p = t.dropWhile p := by
        simp [List.dropWhile_cons, hpa]
      rw [List.filter_cons, List.takeWhile_cons, hpa]
      simp only [if_true]
      rw [ih (fun x hx => h x (by rw [hdrop]; exact hx))]
    | false =>
      have hdrop : (a :: t).dropWhile p = a :: t := by
        simp [List.dropWhile_cons, hpa]
      have hall : ∀ x ∈ a :: t, p x = false := fun x hx => h x (by rw [hdrop]; exact hx)
      rw [List.takeWhile_cons, hpa]
      simp only [Bool.false_eq_true, if_false]
      exact List.filter_eq_nil_iff.mpr (fun x hx => by simp [hall x hx])

/-- C2 (amended): the Deal Reconstructor returns exactly the orders of the
timestamp-descending-sorted BUY NEW/FILLED history whose client order ids
contain the head order's deal identifier as a substring, in sorted order; when
those matching orders form a prefix of the sorted list (no match after the
first non-match), the output is that maximal prefix. -/
theorem C2_deal_reconstruction :
    ∀ (orders : List Order) (head : Order) (tail : List Order),
      sort_orders_by_timestamp
          (orders.filter (fun o => o.is_new_or_filled_order && o.is_buy_order))
        = head :: tail →
      (get_current_deal_orders orders
         = some ((head :: tail).filter (fun o => str_contains o.order_id head.get_deal_id)))
      ∧ ((∀ o ∈ (head :: tail).dropWhile (fun o => str_contains o.order_id head.get_deal_id),
            str_contains o.order_id head.get_deal_id = false) →
          get_current_deal_orders orders
            = some ((head :: tail).takeWhile
                (fun o => str_contains o.order_id head.get_deal_id))) := by
  intro orders head tail hsort
  have h1 : get_current_deal_orders orders
      = some ((head :: tail).filter (fun o => str_contains o.order_id head.get_deal_id)) := by
    show (match sort_orders_by_timestamp
            (orders.filter (fun o => o.is_new_or_filled_order && o.is_buy_order)) with
          | [] => none
          | head :: tail =>
              some ((head :: tail).filter (fun o => str_contains o.order_id head.get_deal_id)))
        = some ((head :: tail).filter (fun o => str_contains o.order_id head.get_deal_id))
    rw [hsort]
  refine ⟨h1, fun h => ?_⟩
  rw [h1, filter_eq_takeWhile_of_no_late_match _ _ h]

/-- Witness for C2 (amended) on a well-formed history (deal-7 orders
contiguous at the top): the reconstructor returns the maximal prefix. -/
theorem C2_deal_reconstruction_witness :
    get_current_deal_orders [order_a, order_e, order_f] = some [order_a, order_e] := by
  have h := (C2_deal_reconstruction [order_a, order_e, order_f] order_a [order_e, order_f]
    (by decide)).2 (by decide)
  exact h.trans (by decide)

/-! ## Claim C7: precision calculator -/

/-- C7: the Precision Calculator returns max(2 + floor(log10 |price|), 0)
(Int.log 10 is that floor: 10 ^ k <= |price| < 10 ^ (k + 1)); the reference
currency USDT is priced at 1 giving 2; a failed fetch gives the default 2; the
memoized wrapper is idempotent, so the value is computed at most once. -/
theorem C7_precision :
    ∀ (price_of : String → Option ℚ) (asset : String) (cache : List (String × ℤ)),
      (asset ≠ "USDT" → price_of asset = none → get_asset_precision price_of asset = 2)
      ∧ get_asset_precision price_of "USDT" = 2
      ∧ (∀ p : ℚ, asset ≠ "USDT" → price_of asset = some p → p ≠ 0 →
          get_asset_precision price_of asset = max (2 + Int.log 10 |p|) 0
          ∧ (10:ℚ) ^ (Int.log 10 |p|) ≤ |p|
          ∧ |p| < (10:ℚ) ^ (Int.log 10 |p| + 1))
      ∧ get_asset_precision_cached price_of
            (get_asset_precision_cached price_of cache asset).2 asset
          = get_asset_precision_cached price_of cache asset := by
  intro price_of asset cache
  refine ⟨?_, ?_, ?_, ?_⟩
  · intro hne hnone
    have hb : (asset == "USDT") = false := beq_eq_false_iff_ne.mpr hne
    simp [get_asset_precision, hb, hnone]
  · have hlog : Int.log 10 |(1:ℚ)| = 0 := by
      rw [abs_one]; exact Int.log_one_right 10
    simp [get_asset_precision, hlog]
  · intro p hne hsome hp0
    have hb : (asset == "USDT") = false := beq_eq_false_iff_ne.mpr hne
    refine ⟨by simp [get_asset_precision, hb, hsome, hp0], ?_, ?_⟩
    · exact Int.zpow_log_le_self (by norm_num) (abs_pos.mpr hp0)
    · exact Int.lt_zpow_succ_log_self (by norm_num) |p|
  · unfold get_asset_precision_cached
    cases h : cache.lookup asset with
    | some v => simp [h]
    | none => simp [h, List.lookup]

/-- Witness for C7 at a concrete fetched price of 20000. -/
theorem C7_precision_witness :
    get_asset_precision (fun _ => some 20000) "BTC" = max (2 + Int.log 10 |(20000:ℚ)|) 0
    ∧ (10:ℚ) ^ (Int.log 10 |(20000:ℚ)|) ≤ |(20000:ℚ)|
    ∧ |(20000:ℚ)| < (10:ℚ) ^ (Int.log 10 |(20000:ℚ)| + 1) :=
  (C7_precision (fun _ => some 20000) "BTC" []).2.2.1 20000 (by decide) rfl (by decide)

/-! ## Claim C5: redeem path on a shortfall -/

/-- On a shortfall the Executor reduces to the redeem routine on the absolute
delta, with the invocation recorded. -/
theorem rebalance_savings_neg (env : Env) (st : EState) (asset : String) (qp : ℤ)
    (current required : ℚ) (hneg : py_round (current - required) qp < 0) :
    rebalance_savings env st asset qp current required
      = redeem_asset_from_savings env { st with invocations := st.invocations ++ [asset] }
          asset (-(py_round (current - required) qp)) := by
  simp only [rebalance_savings]
  rw [if_pos hneg]

/-- C5: on a shortfall (rounded delta < 0): a not-redeemable asset causes no
external call and is added to the Failure Set; a redeemable asset (live mode)
is redeemed by exactly min(|delta|, available savings) — no call at all when
that minimum is zero — and the partial-coverage notification fires exactly
when the savings pool holds less than |delta|. -/
theorem C5_redeem_shortfall :
    ∀ (env : Env) (st : EState) (asset : String) (qp : ℤ) (current required : ℚ),
      py_round (current - required) qp < 0 →
      (env.can_redeem asset = false →
          (rebalance_savings env st asset qp current required).redeem_calls = st.redeem_calls
          ∧ (rebalance_savings env st asset qp current required).subscribe_calls
              = st.subscribe_calls
          ∧ (rebalance_savings env st asset qp current required).failures
              = add_failure st.failures asset)
      ∧ (env.can_redeem asset = true → env.dry_run = false → 0 ≤ env.savings asset →
          ((rebalance_savings env st asset qp current required).redeem_calls
             = if 0 < min (-(py_round (current - required) qp)) (env.savings asset)
               then (asset, min (-(py_round (current - required) qp)) (env.savings asset))
                      :: st.redeem_calls
               else st.redeem_calls)
          ∧ (Msg.notEnoughSavings asset
               ∈ (rebalance_savings env st asset qp current required).msgs
             ↔ (Msg.notEnoughSavings asset ∈ st.msgs
                 ∨ env.savings asset < -(py_round (current - required) qp)))) := by
  intro env st asset qp current required hneg
  rw [rebalance_savings_neg env st asset qp current required hneg]
  constructor
  · intro hcr
    by_cases hs : env.savings asset < -(py_round (current - required) qp) <;>
      simp [redeem_asset_from_savings, hcr, hs]
  · intro hcr hd hsav
    by_cases hs : env.savings asset < -(py_round (current - required) qp)
    · have hmin : min (-(py_round (current - required) qp)) (env.savings asset)
          = env.savings asset := min_eq_right (le_of_lt hs)
      by_cases hq : 0 < env.savings asset
      · cases hraise : env.redeem_raises asset <;>
          simp [redeem_asset_from_savings, hcr, hs, hd, hq, hmin, hraise]
      · have hq0 : env.savings asset = 0 := le_antisymm (not_lt.mp hq) hsav
        simp [redeem_asset_from_savings, hcr, hs, hd, hq0, hmin, hneg]
    · have hmin : min (-(py_round (current - required) qp)) (env.savings asset)
          = -(py_round (current - required) qp) := min_eq_left (not_lt.mp hs)
      have hqpos : (0:ℚ) < -(py_round (current - required) qp) := neg_pos.mpr hneg
      cases hraise : env.redeem_raises asset <;>
        simp [redeem_asset_from_savings, hcr, hs, hd, hmin, hqpos, hraise]

/-- Env of the spec's unavailable-for-redeem scenario: nothing redeemable,
live mode. -/
def env_no_redeem : Env :=
  ⟨fun _ => 0, fun _ => false, fun _ => true, fun _ => 10, false,
   fun _ => false, fun _ => false⟩

/-- Witness for C5: delta = -20 with a not-redeemable asset makes no call and
adds the asset to the Failure Set. -/
theorem C5_redeem_shortfall_witness :
    (rebalance_savings env_no_redeem st0 "USDT" 0 0 20).redeem_calls = st0.redeem_calls
    ∧ (rebalance_savings env_no_redeem st0 "USDT" 0 0 20).failures
        = add_failure st0.failures "USDT" := by
  have h := (C5_redeem_shortfall env_no_redeem st0 "USDT" 0 0 20 (by decide)).1 rfl
  exact ⟨h.1, h.2.2⟩

/-! ## Claim C8: dry-run safety -/

/-- Filtering out the dry-run notice drops exactly it. -/
theorem filter_notice_self (l : List Msg) :
    (Msg.dryRunNotice :: l).filter (fun x => x != Msg.dryRunNotice)
      = l.filter (fun x => x != Msg.dryRunNotice) := by
  simp [List.filter_cons]

/-- Filtering out the dry-run notice keeps every other message. -/
theorem filter_notice_other (m : Msg) (hm : m ≠ Msg.dryRunNotice) (l : List Msg) :
    (m :: l).filter (fun x => x != Msg.dryRunNotice)
      = m :: l.filter (fun x => x != Msg.dryRunNotice) := by
  simp [List.filter_cons, hm]

/-- In dry-run mode the redeem routine issues no external call, and its
failure additions and decision notifications (everything except the dry-run
notice) agree with a live run whose external call succeeds. -/
theorem redeem_dry_run_frame (env : Env) (st : EState) (asset : String) (qty : ℚ)
    (hrr : env.redeem_raises asset = false) :
    (redeem_asset_from_savings { env with dry_run := true } st asset qty).redeem_calls
        = st.redeem_calls
    ∧ (redeem_asset_from_savings { env with dry_run := true } st asset qty).subscribe_calls
        = st.subscribe_calls
    ∧ (redeem_asset_from_savings { env with dry_run := true } st asset qty).failures
        = (redeem_asset_from_savings { env with dry_run := false } st asset qty).failures
    ∧ (redeem_asset_from_savings { env with dry_run := true } st asset qty).msgs.filter
          (fun m => m != Msg.dryRunNotice)
        = (redeem_asset_from_savings { env with dry_run := false } st asset qty).msgs.filter
          (fun m => m != Msg.dryRunNotice) := by
  by_cases hs : env.savings asset < qty
  · cases hcr : env.can_redeem asset
    · simp [redeem_asset_from_savings, hs, hcr]
    · by_cases hq : (0:ℚ) < env.savings asset <;>
        simp [redeem_asset_from_savings, hs, hcr, hq, hrr,
              filter_notice_self, filter_notice_other]
  · cases hcr : env.can_redeem asset
    · simp [redeem_asset_from_savings, hs, hcr]
    · by_cases hq : (0:ℚ) < qty <;>
        simp [redeem_asset_from_savings, hs, hcr, hq, hrr,
              filter_notice_self, filter_notice_other]

/-- In dry-run mode the subscribe routine issues no external call, and its
minimum-amount check, failure additions and decision notifications agree with
a live run whose external call succeeds. -/
theorem subscribe_dry_run_frame (env : Env) (st : EState) (asset : String) (qty : ℚ)
    (hsr : env.subscribe_raises asset = false) :
    (subscribe_asset_to_savings { env with dry_run := true } st asset qty).subscribe_calls
        = st.subscribe_calls
    ∧ (subscribe_asset_to_savings { env with dry_run := true } st asset qty).redeem_calls
        = st.redeem_calls
    ∧ (subscribe_asset_to_savings { env with dry_run := true } st asset qty).failures
        = (subscribe_asset_to_savings { env with dry_run := false } st asset qty).failures
    ∧ (subscribe_asset_to_savings { env with dry_run := true } st asset qty).msgs.filter
          (fun m => m != Msg.dryRunNotice)
        = (subscribe_asset_to_savings { env with dry_run := false } st asset qty).msgs.filter
          (fun m => m != Msg.dryRunNotice) := by
  by_cases hmin : qty < env.min_purchase asset <;>
    cases hcp : env.can_purchase asset <;>
    simp [subscribe_asset_to_savings, hmin, hcp, hsr,
          filter_notice_self, filter_notice_other]

/-- In live mode every redeem call issued by the redeem routine carries a
strictly positive quantity. -/
theorem redeem_live_calls_positive (env : Env) (st : EState) (asset : String) (qty : ℚ)
    (hd : env.dry_run = false) :
    ∀ c ∈ (redeem_asset_from_savings env st asset qty).redeem_calls,
      c ∈ st.redeem_calls ∨ 0 < c.2 := by
  intro c hc
  by_cases hs : env.savings asset < qty
  · by_cases hq : (0:ℚ) < env.savings asset
    · cases hcr : env.can_redeem asset
      · simp [redeem_asset_from_savings, hs, hcr] at hc
        exact Or.inl hc
      · cases hraise : env.redeem_raises asset <;>
          simp [redeem_asset_from_savings, hs, hcr, hq, hd, hraise] at hc <;>
          (rcases hc with rfl | hc
           · exact Or.inr hq
           · exact Or.inl hc)
    · cases hcr : env.can_redeem asset <;>
        simp [redeem_asset_from_savings, hs, hcr, hq, hd] at hc <;>
        exact Or.inl hc
  · by_cases hq : (0:ℚ) < qty
    · cases hcr : env.can_redeem asset
      · simp [redeem_asset_from_savings, hs, hcr] at hc
        exact Or.inl hc
      · cases hraise : env.redeem_raises asset <;>
          simp [redeem_asset_from_savings, hs, hcr, hq, hd, hraise] at hc <;>
          (rcases hc with rfl | hc
           · exact Or.inr hq
           · exact Or.inl hc)
    · cases hcr : env.can_redeem asset <;>
        simp [redeem_asset_from_savings, hs, hcr, hq, hd] at hc <;>
        exact Or.inl hc

/-- C8: with dry_run = true neither the subscribe nor the redeem external call
is made, while the failure-set additions and the decision notifications
(everything but the dry-run notice itself) are those of the corresponding
live run; moreover in live mode a redeem call never carries a non-positive
quantity. -/
theorem C8_dry_run_safety :
    ∀ (env : Env) (st : EState) (asset : String) (qty : ℚ),
      env.redeem_raises asset = false → env.subscribe_raises asset = false →
      ((redeem_asset_from_savings { env with dry_run := true } st asset qty).redeem_calls
          = st.redeem_calls
       ∧ (redeem_asset_from_savings { env with dry_run := true } st asset qty).subscribe_calls
          = st.subscribe_calls
       ∧ (subscribe_asset_to_savings { env with dry_run := true } st asset qty).subscribe_calls
          = st.subscribe_calls
       ∧ (subscribe_asset_to_savings { env with dry_run := true } st asset qty).redeem_calls
          = st.redeem_calls
       ∧ (redeem_asset_from_savings { env with dry_run := true } st asset qty).failures
          = (redeem_asset_from_savings { env with dry_run := false } st asset qty).failures
       ∧ (subscribe_asset_to_savings { env with dry_run := true } st asset qty).failures
          = (subscribe_asset_to_savings { env with dry_run := false } st asset qty).failures
       ∧ (redeem_asset_from_savings { env with dry_run := true } st asset qty).msgs.filter
            (fun m => m != Msg.dryRunNotice)
          = (redeem_asset_from_savings { env with dry_run := false } st asset qty).msgs.filter
            (fun m => m != Msg.dryRunNotice)
       ∧ (subscribe_asset_to_savings { env with dry_run := true } st asset qty).msgs.filter
            (fun m => m != Msg.dryRunNotice)
          = (subscribe_asset_to_savings { env with dry_run := false } st asset qty).msgs.filter
            (fun m => m != Msg.dryRunNotice))
      ∧ (env.dry_run = false →
          ∀ c ∈ (redeem_asset_from_savings env st asset qty).redeem_calls,
            c ∈ st.redeem_calls ∨ 0 < c.2) := by
  intro env st asset qty hrr hsr
  refine ⟨?_, fun hd => redeem_live_calls_positive env st asset qty hd⟩
  obtain ⟨h1, h2, h3, h4⟩ := redeem_dry_run_frame env st asset qty hrr
  obtain ⟨g1, g2, g3, g4⟩ := subscribe_dry_run_frame env st asset qty hsr
  exact ⟨h1, h2, g1, g2, h3, g3, h4, g4⟩

/-- A live executor environment with funded savings, everything eligible. -/
def env_live : Env :=
  ⟨fun _ => 100, fun _ => true, fun _ => true, fun _ => 10, false,
   fun _ => false, fun _ => false⟩

/-- Witness for C8: a concrete dry-run invocation issues no external calls. -/
theorem C8_dry_run_safety_witness :
    (redeem_asset_from_savings { env_live with dry_run := true } st0 "USDT" 20).redeem_calls
        = st0.redeem_calls
    ∧ (subscribe_asset_to_savings { env_live with dry_run := true } st0 "USDT" 20).subscribe_calls
        = st0.subscribe_calls := by
  have h := C8_dry_run_safety env_live st0 "USDT" 20 rfl rfl
  exact ⟨h.1.1, h.1.2.2.1⟩

/-! ## Claim C1: full-universe handling of the 0.0 sentinel projection -/

/-- The redeem routine never touches the invocation log. -/
theorem redeem_invocations_eq (env : Env) (st : EState) (asset : String) (qty : ℚ) :
    (redeem_asset_from_savings env st asset qty).invocations = st.invocations := by
  by_cases hs : env.savings asset < qty
  · cases hcr : env.can_redeem asset
    · simp [redeem_asset_from_savings, hs, hcr]
    · by_cases hq : (0:ℚ) < env.savings asset <;>
        cases hraise : env.redeem_raises asset <;>
        cases hd : env.dry_run <;>
        simp [redeem_asset_from_savings, hs, hcr, hq, hraise, hd]
  · cases hcr : env.can_redeem asset
    · simp [redeem_asset_from_savings, hs, hcr]
    · by_cases hq : (0:ℚ) < qty <;>
        cases hraise : env.redeem_raises asset <;>
        cases hd : env.dry_run <;>
        simp [redeem_asset_from_savings, hs, hcr, hq, hraise, hd]

/-- The subscribe routine never touches the invocation log. -/
theorem subscribe_invocations_eq (env : Env) (st : EState) (asset : String) (qty : ℚ) :
    (subscribe_asset_to_savings env st asset qty).invocations = st.invocations := by
  by_cases hmin : qty < env.min_purchase asset
  · simp [subscribe_asset_to_savings, hmin]
  · cases hcp : env.can_purchase asset
    · simp [subscribe_asset_to_savings, hmin, hcp]
    · cases hraise : env.subscribe_raises asset <;>
        cases hd : env.dry_run <;>
        simp [subscribe_asset_to_savings, hmin, hcp, hraise, hd]

/-- Every Executor entry appends exactly its quote asset to the invocation
log. -/
theorem rebalance_savings_invocations (env : Env) (st : EState) (q : String) (qp : ℤ)
    (cur req : ℚ) :
    (rebalance_savings env st q qp cur req).invocations = st.invocations ++ [q] := by
  simp only [rebalance_savings]
  by_cases h1 : py_round (cur - req) qp < 0
  · rw [if_pos h1, redeem_invocations_eq]
  · rw [if_neg h1]
    by_cases h2 : py_round (cur - req) qp > 0
    · rw [if_pos h2, subscribe_invocations_eq]
    · rw [if_neg h2]

/-- Membership after a Python set.add. -/
theorem mem_add_failure (failures : List String) (asset a : String)
    (h : a ∈ add_failure failures asset) : a ∈ failures ∨ a = asset := by
  unfold add_failure at h
  split at h
  · exact Or.inl h
  · rcases List.mem_cons.mp h with h | h
    · exact Or.inr h
    · exact Or.inl h

/-- The redeem routine adds to the Failure Set only its own asset, and only
when that asset is not redeemable or the external call raised. -/
theorem redeem_failures_mem (env : Env) (st : EState) (asset : String) (qty : ℚ) (a : String)
    (h : a ∈ (redeem_asset_from_savings env st asset qty).failures) :
    a ∈ st.failures
    ∨ (a = asset ∧ (env.can_redeem asset = false ∨ env.redeem_raises asset = true)) := by
  by_cases hs : env.savings asset < qty
  · cases hcr : env.can_redeem asset
    · simp [redeem_asset_from_savings, hs, hcr] at h
      rcases mem_add_failure st.failures asset a h with h | h
      · exact Or.inl h
      · exact Or.inr ⟨h, Or.inl rfl⟩
    · by_cases hq : (0:ℚ) < env.savings asset <;>
        cases hraise : env.redeem_raises asset <;>
        cases hd : env.dry_run <;>
        simp [redeem_asset_from_savings, hs, hcr, hq, hraise, hd] at h <;>
        first
          | exact Or.inl h
          | (rcases mem_add_failure st.failures asset a h with h | h
             · exact Or.inl h
             · exact Or.inr ⟨h, Or.inr rfl⟩)
  · cases hcr : env.can_redeem asset
    · simp [redeem_asset_from_savings, hs, hcr] at h
      rcases mem_add_failure st.failures asset a h with h | h
      · exact Or.inl h
      · exact Or.inr ⟨h, Or.inl rfl⟩
    · by_cases hq : (0:ℚ) < qty <;>
        cases hraise : env.redeem_raises asset <;>
        cases hd : env.dry_run <;>
        simp [redeem_asset_from_savings, hs, hcr, hq, hraise, hd] at h <;>
        first
          | exact Or.inl h
          | (rcases mem_add_failure st.failures asset a h with h | h
             · exact Or.inl h
             · exact Or.inr ⟨h, Or.inr rfl⟩)

/-- The subscribe routine adds to the Failure Set only its own asset, and only
when that asset is not purchasable or the external call raised. -/
theorem subscribe_failures_mem (env : Env) (st : EState) (asset : String) (qty : ℚ) (a : String)
    (h : a ∈ (subscribe_asset_to_savings env st asset qty).failures) :
    a ∈ st.failures
    ∨ (a = asset ∧ (env.can_purchase asset = false ∨ env.subscribe_raises asset = true)) := by
  by_cases hmin : qty < env.min_purchase asset
  · simp [subscribe_asset_to_savings, hmin] at h
    exact Or.inl h
  · cases hcp : env.can_purchase asset
    · simp [subscribe_asset_to_savings, hmin, hcp] at h
      rcases mem_add_failure st.failures asset a h with h | h
      · exact Or.inl h
      · exact Or.inr ⟨h, Or.inl rfl⟩
    · cases hraise : env.subscribe_raises asset <;>
        cases hd : env.dry_run <;>
        simp [subscribe_asset_to_savings, hmin, hcp, hraise, hd] at h <;>
        first
          | exact Or.inl h
          | (rcases mem_add_failure st.failures asset a h with h | h
             · exact Or.inl h
             · exact Or.inr ⟨h, Or.inr rfl⟩)

/-- The Executor adds to the Failure Set only its own quote asset, and only
through unavailability or a raising external call. -/
theorem rebalance_savings_failures_mem (env : Env) (st : EState) (q : String) (qp : ℤ)
    (cur req : ℚ) (a : String)
    (h : a ∈ (rebalance_savings env st q qp cur req).failures) :
    a ∈ st.failures
    ∨ (a = q ∧ (env.can_redeem q = false ∨ env.can_purchase q = false
                ∨ env.redeem_raises q = true ∨ env.subscribe_raises q = true)) := by
  simp only [rebalance_savings] at h
  by_cases h1 : py_round (cur - req) qp < 0
  · rw [if_pos h1] at h
    rcases redeem_failures_mem _ _ _ _ _ h with h | ⟨rfl, hflag⟩
    · exact Or.inl h
    · rcases hflag with hf | hf
      · exact Or.inr ⟨rfl, Or.inl hf⟩
      · exact Or.inr ⟨rfl, Or.inr (Or.inr (Or.inl hf))⟩
  · rw [if_neg h1] at h
    by_cases h2 : py_round (cur - req) qp > 0
    · rw [if_pos h2] at h
      rcases subscribe_failures_mem _ _ _ _ _ h with h | ⟨rfl, hflag⟩
      · exact Or.inl h
      · rcases hflag with hf | hf
        · exact Or.inr ⟨rfl, Or.inr (Or.inl hf)⟩
        · exact Or.inr ⟨rfl, Or.inr (Or.inr (Or.inr hf))⟩
    · rw [if_neg h2] at h
      exact Or.inl h

/-- A successful pass over one quote asset ends in an Executor call on the
incoming state. -/
theorem process_quote_asset_state (env : UniEnv) (tbl : List AssetRow) (st : EState)
    (q : String) (tbl2 : List AssetRow) (st2 : EState)
    (h : process_quote_asset env (tbl, st) q = some (tbl2, st2)) :
    ∃ qp cur req, st2 = rebalance_savings env.ex st q qp cur req := by
  simp only [process_quote_asset] at h
  split at h
  · simp at h
  · split at h
    · simp at h
    · simp only [Option.some.injEq, Prod.mk.injEq] at h
      exact ⟨_, _, _, h.2.symm⟩

/-- Effects of one quote-asset pass: exactly one Executor invocation, and
Failure Set growth only through the Executor's own checks. -/
theorem process_quote_asset_effects (env : UniEnv) (tbl : List AssetRow) (st : EState)
    (q : String) (tbl2 : List AssetRow) (st2 : EState)
    (h : process_quote_asset env (tbl, st) q = some (tbl2, st2)) :
    st2.invocations = st.invocations ++ [q]
    ∧ ∀ a, a ∈ st2.failures →
        a ∈ st.failures ∨ env.ex.can_redeem a = false ∨ env.ex.can_purchase a = false
        ∨ env.ex.redeem_raises a = true ∨ env.ex.subscribe_raises a = true := by
  obtain ⟨qp, cur, req, rfl⟩ := process_quote_asset_state env tbl st q tbl2 st2 h
  refine ⟨rebalance_savings_invocations env.ex st q qp cur req, ?_⟩
  intro a ha
  rcases rebalance_savings_failures_mem env.ex st q qp cur req a ha with ha | ⟨rfl, hflag⟩
  · exact Or.inl ha
  · rcases hflag with hf | hf | hf | hf
    · exact Or.inr (Or.inl hf)
    · exact Or.inr (Or.inr (Or.inl hf))
    · exact Or.inr (Or.inr (Or.inr (Or.inl hf)))
    · exact Or.inr (Or.inr (Or.inr (Or.inr hf)))

/-- Effects of the quote-asset loop, by induction over the group list. -/
theorem foldlM_process_effects (env : UniEnv) (qs : List String) :
    ∀ (tbl : List AssetRow) (st : EState) (tbl2 : List AssetRow) (st2 : EState),
      qs.foldlM (fun acc q => process_quote_asset env acc q) (tbl, st) = some (tbl2, st2) →
      st2.invocations = st.invocations ++ qs
      ∧ ∀ a, a ∈ st2.failures →
          a ∈ st.failures ∨ env.ex.can_redeem a = false ∨ env.ex.can_purchase a = false
          ∨ env.ex.redeem_raises a = true ∨ env.ex.subscribe_raises a = true := by
  induction qs with
  | nil =>
    intro tbl st tbl2 st2 h
    simp only [List.foldlM_nil, Option.some.injEq, Prod.mk.injEq] at h
    obtain ⟨-, rfl⟩ := h
    exact ⟨by simp, fun a ha => Or.inl ha⟩
  | cons q rest ih =>
    intro tbl st tbl2 st2 h
    rw [List.foldlM_cons] at h
    cases hq : process_quote_asset env (tbl, st) q with
    | none => rw [hq] at h; simp at h
    | some acc1 =>
      rw [hq] at h
      obtain ⟨tbl1, st1⟩ := acc1
      have h1 := process_quote_asset_effects env tbl st q tbl1 st1 hq
      have h2 := ih tbl1 st1 tbl2 st2 (by simpa using h)
      constructor
      · rw [h2.1, h1.1]
        simp
      · intro a ha
        rcases h2.2 a ha with ha1 | hflag
        · rcases h1.2 a ha1 with ha2 | hflag2
          · exact Or.inl ha2
          · exact Or.inr hflag2
        · exact Or.inr hflag

/-- C1 (amended): a completed full-universe pass invokes the Executor exactly
once for every quote asset of the group list, in order — no quote asset is
skipped, whatever the member projections (including the 0.0 sentinel value) —
and the Failure Set grows only through the Executor's own unavailability or
external-error handling, never because of a sentinel projection. -/
theorem C1_no_skip :
    ∀ (env : UniEnv) (tbl tbl2 : List AssetRow) (st st2 : EState),
      rebalance_quote_assets env tbl st = some (tbl2, st2) →
      st2.invocations = st.invocations ++ quote_assets_of env
      ∧ ∀ a, a ∈ st2.failures →
          a ∈ st.failures ∨ env.ex.can_redeem a = false ∨ env.ex.can_purchase a = false
          ∨ env.ex.redeem_raises a = true ∨ env.ex.subscribe_raises a = true := by
  intro env tbl tbl2 st st2 h
  exact foldlM_process_effects env (quote_assets_of env) tbl st tbl2 st2 h

/-- A NEW BUY order at price 0: its deal projects to exactly the 0.0 value
that is the spec's no-projection sentinel. -/
def order_sentinel : Order := ⟨"AAAUSDT", "AAA", "USDT", 0, 5, "x_1_1", "NEW", "BUY", 1⟩

/-- A one-symbol universe whose only member projects the sentinel value 0. -/
def uni_env_sentinel : UniEnv :=
  { active_symbols := ["AAAUSDT"], excluded_symbols := [],
    quote_asset_of := fun _ => "USDT",
    orders_of := fun _ => [order_sentinel],
    step_size_of := fun _ => 1/100,
    quote_precision_of := fun _ => 8,
    balance_of := fun _ => 0,
    dca_volume_scale := 1.05,
    ex := { savings := fun _ => 0, can_redeem := fun _ => true, can_purchase := fun _ => true,
            min_purchase := fun _ => 10, dry_run := false,
            redeem_raises := fun _ => false, subscribe_raises := fun _ => false } }

/-- The table a full pass over the sentinel universe produces. -/
def tbl_sentinel_result : List AssetRow := [⟨"AAAUSDT", 0, "USDT"⟩]

/-- The state a full pass over the sentinel universe produces: executor
invoked for USDT, empty Failure Set. -/
def st_sentinel_result : EState := ⟨[], [], [], [Msg.noRebalanceRequired], ["USDT"]⟩

/-- C1 counterexample: in a full-universe pass where the only member symbol of
the USDT group projects the sentinel 0.0, the quote asset is NOT skipped (the
Executor is invoked for USDT) and USDT is NOT added to the Failure Set —
contradicting the claimed skip-and-retry policy. -/
theorem C1_counterexample :
    get_current_deal_orders (uni_env_sentinel.orders_of "AAAUSDT") = some [order_sentinel]
    ∧ calculate_next_order_value uni_env_sentinel.dca_volume_scale
        (uni_env_sentinel.step_size_of "AAAUSDT") [order_sentinel] = 0
    ∧ rebalance_quote_assets uni_env_sentinel [] st0
        = some (tbl_sentinel_result, st_sentinel_result)
    ∧ st_sentinel_result.invocations = ["USDT"]
    ∧ st_sentinel_result.failures = [] := by
  refine ⟨by decide, by decide, by decide, rfl, rfl⟩

/-- Witness for C1 (amended): on the sentinel universe the completed pass has
invoked the Executor for the whole group list. -/
theorem C1_no_skip_witness :
    st_sentinel_result.invocations = st0.invocations ++ quote_assets_of uni_env_sentinel :=
  (C1_no_skip uni_env_sentinel [] tbl_sentinel_result st0 st_sentinel_result (by decide)).1
